import Mathlib

/-!
Verification of the client-side search-session controller of the Spanish
crossword solver frontend.

The development shallowly embeds the logic-bearing parts of the frontend:

* the mode detector `detectInputType` (SearchBar.tsx),
* the submit resolution `resolveSubmission` / `handleSubmit` (SearchBar.tsx),
* the history store `saveToHistory` and the load effect (App.tsx),
* the search orchestrator `handleSearch` with its request bodies (App.tsx),
* the result curator `filteredAndSortedResults` and its filter state
  machine (ResultsList.tsx).

JavaScript strings are modelled as Lean `String` (a list of characters);
JavaScript numbers holding scores are modelled as `ℚ`; the length form field,
which the source keeps as a string, is modelled as `String`, and parsed
lengths as `Int`.  `Array.prototype.sort`, which the JS specification
requires to be a stable comparison sort, is modelled as a stable insertion
sort over the comparator's sign.
-/

/-! ## Data model -/

/-- Source `type SearchMode = 'pattern' | 'definition'` (SearchBar.tsx / App.tsx). -/
inductive SearchMode where
  | pattern
  | definition
deriving DecidableEq

/-- Source `interface WordResult` (App.tsx / ResultsList.tsx): word, numeric score,
optional definition text, and source tag.  The score is modelled as `ℚ`. -/
structure WordResult where
  word : String
  score : ℚ
  definition : Option String
  source : String
deriving DecidableEq

/-- Source `interface SearchHistoryItem` (App.tsx / SearchBar.tsx). -/
structure SearchHistoryItem where
  pattern : String
  length : Int
  clue : String
  mode : SearchMode
  timestamp : Nat
deriving DecidableEq

/-- Source `type SortOption` with values score, alphabetical, length, found
(ResultsList.tsx). -/
inductive SortOption where
  | score
  | alphabetical
  | length
  | found
deriving DecidableEq

/-- Source `type FilterState` (ResultsList.tsx). -/
structure FilterState where
  minLength : Nat
  maxLength : Nat
  showDefinitions : Bool
  sortBy : SortOption
deriving DecidableEq

/-! ## Mode Detector (SearchBar.tsx, `detectInputType`) -/

/-- Whitespace characters, as used by `String.prototype.trim`
(restricted to the ASCII whitespace that can occur in the inputs
considered here). -/
def isWs (c : Char) : Bool :=
  c == ' ' || c == '\t' || c == '\n' || c == '\r'

/-- Model of `input.trim()`: remove leading and trailing whitespace. -/
def jsTrim (s : String) : String :=
  String.mk (((s.data.dropWhile isWs).reverse.dropWhile isWs).reverse)

/-- One character of the regex class `[A-Za-z_*]` tested by
`/^[A-Za-z_*]+$/` in `detectInputType`. -/
def isPatternChar (c : Char) : Bool :=
  ('A' ≤ c && c ≤ 'Z') || ('a' ≤ c && c ≤ 'z') || c == '_' || c == '*'

/-- Source `detectInputType` (SearchBar.tsx lines 30–46): trim the input; empty
input keeps the current mode; an embedded space means definition; input
matching `/^[A-Za-z_*]+$/` means pattern; anything else defaults to
definition. -/
def detectInputType (input : String) (searchMode : SearchMode) : SearchMode :=
  let trimmed := jsTrim input
  if trimmed = "" then searchMode
  else if trimmed.data.contains ' ' then .definition
  else if trimmed.data.all isPatternChar then .pattern
  else .definition

/-! ## History Store (App.tsx, `saveToHistory` and the load effect) -/

/-- Source `MAX_HISTORY_ITEMS = 20` (App.tsx line 25). -/
def MAX_HISTORY_ITEMS : Nat := 20

/-- The identity key used by the dedup filter in `saveToHistory`:
the `(pattern, clue, mode)` triple. -/
def historyKey (item : SearchHistoryItem) : String × String × SearchMode :=
  (item.pattern, item.clue, item.mode)

/-- Source `saveToHistory` (App.tsx lines 48–67): build the new item with the
current time, drop any existing entry with the same `(pattern, clue, mode)`
triple, prepend the new item and truncate to `MAX_HISTORY_ITEMS`.
`Date.now()` is passed in as `now`. -/
def saveToHistory (pattern : String) (length : Int) (clue : String)
    (mode : SearchMode) (now : Nat)
    (searchHistory : List SearchHistoryItem) : List SearchHistoryItem :=
  let newItem : SearchHistoryItem :=
    ⟨pattern, length, clue, mode, now⟩
  (newItem :: searchHistory.filter
      (fun item =>
        !(item.pattern == pattern && item.clue == clue && item.mode == mode))
    ).take MAX_HISTORY_ITEMS

/-- A list of 21 history items with pairwise distinct identity keys,
used to exercise the eviction bound of the history store. -/
def witnessHistoryList : List SearchHistoryItem :=
  (List.range 21).map
    (fun n => ⟨String.mk (List.replicate n 'a'), 0, "", .pattern, n⟩)

/-! ## Search Orchestrator (SearchBar.tsx `handleSubmit`, App.tsx `handleSearch`) -/

/-- Model of `parseInt(s) || 0` as used in `handleSubmit` (SearchBar.tsx line 77):
skip leading whitespace, read an optional sign and the longest prefix of
decimal digits; when there are no digits `parseInt` yields `NaN` and the
`|| 0` turns it into `0`. -/
def jsParseIntOr0 (s : String) : Int :=
  let t := s.data.dropWhile isWs
  let signRest : Int × List Char :=
    match t with
    | '-' :: r => (-1, r)
    | '+' :: r => (1, r)
    | r => (1, r)
  let ds := signRest.2.takeWhile (fun c => '0' ≤ c && c ≤ '9')
  if ds = [] then 0
  else signRest.1 *
    (Int.ofNat (ds.foldl (fun n c => n * 10 + (c.toNat - '0'.toNat)) 0))

/-- The local variables `finalPattern`, `finalClue`, `mode` at the end of
the resolution phase of `handleSubmit`. -/
structure ResolvedSubmission where
  finalPattern : String
  finalClue : String
  mode : SearchMode
deriving DecidableEq

/-- The resolution phase of `handleSubmit` (SearchBar.tsx lines 51–74):
a non-empty trimmed pattern field drives mode auto-detection (prose typed
into the pattern box while in pattern mode moves to the clue); otherwise a
non-empty trimmed clue in definition mode keeps definition mode; otherwise
a non-empty length field forces pattern mode; otherwise the submission is
rejected (`none`). -/
def resolveSubmission (pattern clue length : String)
    (searchMode : SearchMode) : Option ResolvedSubmission :=
  let finalPattern := jsTrim pattern
  let finalClue := jsTrim clue
  if finalPattern != "" then
    let detectedMode := detectInputType finalPattern searchMode
    if detectedMode == .definition && searchMode == .pattern then
      some ⟨"", finalPattern, detectedMode⟩
    else
      some ⟨finalPattern, finalClue, detectedMode⟩
  else if finalClue != "" && searchMode == .definition then
    some ⟨finalPattern, finalClue, .definition⟩
  else if length != "" then
    some ⟨"", finalClue, .pattern⟩
  else
    none

/-- The argument tuple passed to `onSearch` when `handleSubmit` issues a
search. -/
structure SubmittedSearch where
  pattern : String
  length : Int
  clue : String
  mode : SearchMode
deriving DecidableEq

/-- Source `handleSubmit` (SearchBar.tsx lines 48–79): run the resolution phase,
then issue `onSearch(finalPattern, parseInt(length) || 0, finalClue, mode)`
exactly when `finalPattern || length || (finalClue && mode === 'definition')`
holds (JavaScript string truthiness: non-emptiness). -/
def handleSubmit (pattern clue length : String)
    (searchMode : SearchMode) : Option SubmittedSearch :=
  match resolveSubmission pattern clue length searchMode with
  | none => none
  | some r =>
    if r.finalPattern != "" || length != ""
        || (r.finalClue != "" && r.mode == .definition) then
      some ⟨r.finalPattern, jsParseIntOr0 length, r.finalClue, r.mode⟩
    else
      none

/-- Body of `POST /api/solve` (App.tsx lines 97–101): `undefined` fields
are omitted from the JSON body, modelled as `none`. -/
structure PatternRequestBody where
  pattern : Option String
  length : Option Int
  clue : Option String
deriving DecidableEq

/-- Body of `POST /api/solve-by-definition` (App.tsx lines 85–88). -/
structure DefinitionRequestBody where
  clue : Option String
  max_length : Option Int
deriving DecidableEq

/-- The request dispatched by `handleSearch`, tagged by endpoint. -/
inductive ApiRequest where
  | solve (body : PatternRequestBody)
  | solveByDefinition (body : DefinitionRequestBody)
deriving DecidableEq

/-- Body construction `pattern: pattern or omitted, length: length when
positive, clue: clue or omitted` (App.tsx lines 97–101). -/
def patternRequestBody (pattern : String) (length : Int)
    (clue : String) : PatternRequestBody :=
  ⟨if pattern = "" then none else some pattern,
   if length > 0 then some length else none,
   if clue = "" then none else some clue⟩

/-- Body construction `clue: clue or omitted, max_length: length when
positive` (App.tsx lines 85–88). -/
def definitionRequestBody (clue : String) (length : Int) : DefinitionRequestBody :=
  ⟨if clue = "" then none else some clue,
   if length > 0 then some length else none⟩

/-- The endpoint and body chosen by `handleSearch` for resolved search
arguments (App.tsx lines 78–103). -/
def issuedRequest (pattern : String) (length : Int) (clue : String)
    (mode : SearchMode) : ApiRequest :=
  match mode with
  | .definition => .solveByDefinition (definitionRequestBody clue length)
  | .pattern => .solve (patternRequestBody pattern length clue)

/-- End-to-end composition: the request that submitting the given form
state produces, if any. -/
def submitRequest (pattern clue length : String)
    (searchMode : SearchMode) : Option ApiRequest :=
  (handleSubmit pattern clue length searchMode).map
    (fun s => issuedRequest s.pattern s.length s.clue s.mode)

/-- The error message produced from a non-ok response (App.tsx lines
105–107): an unparseable body is replaced by `{detail: 'Error desconocido'}`
by the catch, and `errorData.detail || Error status` falls back to the
status text when `detail` is absent or empty. -/
inductive ResponseBody where
  | unparseable
  | parsed (detail : Option String)
deriving DecidableEq

/-- Outcome of the `fetch` call in `handleSearch`: the transport fails,
the response is non-ok, or it succeeds with an optional `results` array. -/
inductive FetchOutcome where
  | networkFailure (message : String)
  | httpError (status : Nat) (body : ResponseBody)
  | success (results : Option (List WordResult))
deriving DecidableEq

/-- The App component's state cells touched by `handleSearch`
(App.tsx lines 28–32), plus the durable-storage copy of the history. -/
structure AppState where
  results : List WordResult
  isSearching : Bool
  error : Option String
  searchHistory : List SearchHistoryItem
  storedHistory : List SearchHistoryItem
  currentSearchMode : SearchMode
deriving DecidableEq

/-- Message of the error thrown on a non-ok response:
`errorData.detail || Error ${response.status}` with the unparseable-body
catch substituting `'Error desconocido'` (App.tsx lines 106–107). -/
def httpErrorMessage (status : Nat) (body : ResponseBody) : String :=
  match body with
  | .unparseable => "Error desconocido"
  | .parsed none => "Error " ++ toString status
  | .parsed (some d) => if d = "" then "Error " ++ toString status else d

/-- Source `handleSearch` (App.tsx lines 69–122): set the searching flag,
clear the error and the results, record the mode; then either surface the
error message (failure paths) or store the results and append to history
(success path); finally clear the searching flag.  `Date.now()` is `now`;
`storageOk` is false when `localStorage.setItem` throws inside
`saveToHistory` (its catch keeps the in-memory update). -/
def handleSearch (st : AppState) (pattern : String) (length : Int)
    (clue : String) (mode : SearchMode) (now : Nat) (storageOk : Bool)
    (outcome : FetchOutcome) : AppState :=
  let st1 : AppState :=
    ⟨[], true, none, st.searchHistory, st.storedHistory, mode⟩
  let st2 : AppState :=
    match outcome with
    | .networkFailure msg =>
        ⟨st1.results, st1.isSearching, some msg,
         st1.searchHistory, st1.storedHistory, st1.currentSearchMode⟩
    | .httpError status body =>
        ⟨st1.results, st1.isSearching, some (httpErrorMessage status body),
         st1.searchHistory, st1.storedHistory, st1.currentSearchMode⟩
    | .success data =>
        let newHistory := saveToHistory pattern length clue mode now st1.searchHistory
        ⟨data.getD [], st1.isSearching, st1.error, newHistory,
         if storageOk then newHistory else st1.storedHistory,
         st1.currentSearchMode⟩
  ⟨st2.results, false, st2.error, st2.searchHistory, st2.storedHistory,
   st2.currentSearchMode⟩

/-- What the history-loading effect finds in durable storage
(App.tsx lines 35–45): the key is missing (or holds a falsy value), the
storage layer throws, or the key holds a string; a stored string is
abstracted by the outcome of `JSON.parse` on it — `none` when parsing
throws, `some h` when it yields a history array. -/
inductive StorageRead where
  | missing
  | failure
  | content (parsed : Option (List SearchHistoryItem))
deriving DecidableEq

/-- The try-block of the load effect: `localStorage.getItem` then
`JSON.parse`, with exceptions modelled as `Except.error`. -/
def loadHistoryBody : StorageRead → Except String (List SearchHistoryItem)
  | .failure => .error "storage failure"
  | .missing => .ok []
  | .content none => .error "JSON parse error"
  | .content (some history) => .ok history

/-- The full load effect (App.tsx lines 35–45): any exception is caught
and only logged, leaving the initial empty history in place. -/
def loadHistory (stored : StorageRead) : List SearchHistoryItem :=
  match loadHistoryBody stored with
  | .error _ => []
  | .ok history => history

/-! ## Result Curator (ResultsList.tsx) -/

/-- The length-filter predicate of `filteredAndSortedResults`
(ResultsList.tsx lines 74–77): word length within
`[filters.minLength, filters.maxLength]`. -/
def inLengthRange (filters : FilterState) (result : WordResult) : Bool :=
  filters.minLength ≤ result.word.length
    && result.word.length ≤ filters.maxLength

/-- Lexicographic code-point comparison of character lists, the model of
`a.localeCompare(b)`: it agrees with the locale collation on the
uppercase unaccented words that appear in the spec's examples. -/
def lexCmp : List Char → List Char → Int
  | [], [] => 0
  | [], _ :: _ => -1
  | _ :: _, [] => 1
  | a :: as, b :: bs =>
    if a < b then -1 else if b < a then 1 else lexCmp as bs

/-- Model of `String.prototype.localeCompare` used by the alphabetical
comparator (ResultsList.tsx line 84). -/
def localeCompare (a b : String) : Int :=
  lexCmp a.data b.data

/-- The comparator passed to `sort` (ResultsList.tsx lines 81–94):
alphabetical uses `localeCompare`, length uses the word-length difference,
found returns 0 (keep original order), score (the default case) returns
`b.score - a.score`. -/
def sortComparator (sortBy : SortOption) (a b : WordResult) : ℚ :=
  match sortBy with
  | .alphabetical => (localeCompare a.word b.word : ℚ)
  | .length => (((a.word.length : Int) - (b.word.length : Int) : Int) : ℚ)
  | .found => 0
  | .score => b.score - a.score

/-- Model of `Array.prototype.sort(cmp)`: a stable comparison sort placing
`a` no later than `b` whenever `cmp a b ≤ 0`, modelled by stable insertion
sort. -/
def jsStableSort (cmp : WordResult → WordResult → ℚ)
    (l : List WordResult) : List WordResult :=
  List.insertionSort (fun a b => cmp a b ≤ 0) l

/-- Source `filteredAndSortedResults` (ResultsList.tsx lines 69–97):
length-filter only in definition mode, then sort a copy of the filtered
array with the chosen comparator. -/
def filteredAndSortedResults (results : List WordResult)
    (filters : FilterState) (searchMode : SearchMode) : List WordResult :=
  let filtered := match searchMode with
    | .definition => results.filter (inLengthRange filters)
    | .pattern => results
  jsStableSort (sortComparator filters.sortBy) filtered

/-- The spec's end-to-end example result set: CASA with score 0.8,
CASO with score 0.6, COSA with score 0.9. -/
def demoResults : List WordResult :=
  [⟨"CASA", mkRat 8 10, none, "local"⟩,
   ⟨"CASO", mkRat 6 10, none, "local"⟩,
   ⟨"COSA", mkRat 9 10, none, "local"⟩]

/-- A heap of arrays, for stating that the curator pipeline does not
mutate the `results` array it is given: JavaScript arrays are references
into a store. -/
def readArr (heap : List (List WordResult)) (r : Nat) : List WordResult :=
  (heap[r]?).getD []

/-- Heap-level rendering of `filteredAndSortedResults`: `results.filter`
allocates a fresh array (definition mode only); the spread `[...filtered]`
allocates a copy; `.sort` then mutates that copy in place.  Returns the
final heap and the reference holding the curated view. -/
def filteredAndSortedResultsHeap (heap : List (List WordResult))
    (results : Nat) (filters : FilterState) (searchMode : SearchMode) :
    List (List WordResult) × Nat :=
  let step1 : List (List WordResult) × Nat :=
    match searchMode with
    | .definition =>
        (heap ++ [(readArr heap results).filter (inLengthRange filters)],
         heap.length)
    | .pattern => (heap, results)
  let heap1 := step1.1
  let fr := step1.2
  let heap2 := heap1 ++ [readArr heap1 fr]
  let cr := heap1.length
  let heap3 := heap2.set cr
    (jsStableSort (sortComparator filters.sortBy) (readArr heap2 cr))
  (heap3, cr)

/-- Fold of `Math.min` over a non-empty spread argument list. -/
def mathMinList : List Nat → Nat
  | [] => 0
  | h :: t => t.foldl Nat.min h

/-- Fold of `Math.max` over a non-empty spread argument list. -/
def mathMaxList : List Nat → Nat
  | [] => 0
  | h :: t => t.foldl Nat.max h

/-- The `lengthRange` memo (ResultsList.tsx lines 32–36): `(0, 20)` for an
empty result set, otherwise the minimum and maximum word lengths. -/
def lengthRange (results : List WordResult) : Nat × Nat :=
  if results = [] then (0, 20)
  else (mathMinList (results.map (fun r => r.word.length)),
        mathMaxList (results.map (fun r => r.word.length)))

/-- The default sort option for a mode:
`searchMode === 'pattern' ? 'found' : 'score'` (ResultsList.tsx line 42). -/
def defaultSortBy (m : SearchMode) : SortOption :=
  match m with
  | .pattern => .found
  | .definition => .score

/-- The state of the Result Curator: current results, current search mode
and filter state. -/
structure CuratorState where
  results : List WordResult
  searchMode : SearchMode
  filters : FilterState
deriving DecidableEq

/-- Events driving the curator's filter state: the four user-edited filter
controls (ResultsList.tsx lines 177–239), a mode change (effect at lines
46–51), and the arrival of a new result set (effect at lines 54–66). -/
inductive CuratorEvent where
  | setMinLength (v : Nat)
  | setMaxLength (v : Nat)
  | setSortBy (s : SortOption)
  | setShowDefinitions (b : Bool)
  | modeChanged (m : SearchMode)
  | resultsChanged (newResults : List WordResult)
deriving DecidableEq

/-- The transition function of the curator's filter state machine,
mirroring the `setFilters` calls and the two effects of ResultsList.tsx. -/
def curatorStep (s : CuratorState) : CuratorEvent → CuratorState
  | .setMinLength v =>
      ⟨s.results, s.searchMode,
       ⟨v, s.filters.maxLength, s.filters.showDefinitions, s.filters.sortBy⟩⟩
  | .setMaxLength v =>
      ⟨s.results, s.searchMode,
       ⟨s.filters.minLength, v, s.filters.showDefinitions, s.filters.sortBy⟩⟩
  | .setSortBy o =>
      ⟨s.results, s.searchMode,
       ⟨s.filters.minLength, s.filters.maxLength, s.filters.showDefinitions, o⟩⟩
  | .setShowDefinitions b =>
      ⟨s.results, s.searchMode,
       ⟨s.filters.minLength, s.filters.maxLength, b, s.filters.sortBy⟩⟩
  | .modeChanged m =>
      ⟨s.results, m,
       ⟨s.filters.minLength, s.filters.maxLength, s.filters.showDefinitions,
        defaultSortBy m⟩⟩
  | .resultsChanged newResults =>
      if newResults = [] then
        ⟨newResults, s.searchMode, s.filters⟩
      else
        ⟨newResults, s.searchMode,
         ⟨mathMinList (newResults.map (fun r => r.word.length)),
          mathMaxList (newResults.map (fun r => r.word.length)),
          s.filters.showDefinitions, s.filters.sortBy⟩⟩

/-- Whether an event is an edit of the min or max length slider. -/
def isLengthEdit : CuratorEvent → Bool
  | .setMinLength _ => true
  | .setMaxLength _ => true
  | _ => false

/-- Whether an event is possible in a state: the length sliders are range
inputs bounded by the `lengthRange` memo of the current result set; every
other event is unconstrained. -/
def legalEvent (s : CuratorState) : CuratorEvent → Bool
  | .setMinLength v =>
      (lengthRange s.results).1 ≤ v && v ≤ (lengthRange s.results).2
  | .setMaxLength v =>
      (lengthRange s.results).1 ≤ v && v ≤ (lengthRange s.results).2
  | _ => true

/-- A trace is legal when each event is legal in the state it fires from. -/
def legalTrace : CuratorState → List CuratorEvent → Bool
  | _, [] => true
  | s, e :: es => legalEvent s e && legalTrace (curatorStep s e) es

/-- Run a trace of curator events. -/
def runTrace (s : CuratorState) (events : List CuratorEvent) : CuratorState :=
  events.foldl curatorStep s

/-- The curator's mount state (ResultsList.tsx lines 38–43): empty results,
range `0`–`20`, definitions shown, mode-default sort. -/
def initialCurator (searchMode : SearchMode) : CuratorState :=
  ⟨[], searchMode, ⟨0, 20, true, defaultSortBy searchMode⟩⟩

/-- A legal edit sequence reaching a state with `minLength > maxLength`:
load results with word lengths 3 and 5, slide the max slider down to 3,
then slide the min slider up to 5. -/
def curatorCexTrace : List CuratorEvent :=
  [.resultsChanged
      [⟨"CAS", mkRat 1 2, none, "local"⟩, ⟨"CASAS", mkRat 1 2, none, "local"⟩],
   .setMaxLength 3,
   .setMinLength 5]

/-! ## C1: the mode detector -/

/-- C1. The function `detect(s, m)` returns `m` when `trim(s)` is empty; returns
`definition` when the trimmed input contains a whitespace character;
returns `pattern` when every character of the trimmed input is a letter
(the source's `A`–`Z`/`a`–`z` class), underscore or asterisk; returns
`definition` otherwise; and the three concrete examples of the spec hold. -/
theorem detectInputType_spec (s : String) (m : SearchMode) :
    (jsTrim s = "" → detectInputType s m = m) ∧
    (jsTrim s ≠ "" → (∃ c ∈ (jsTrim s).data, isWs c = true) →
      detectInputType s m = .definition) ∧
    (jsTrim s ≠ "" → (∀ c ∈ (jsTrim s).data, isPatternChar c = true) →
      detectInputType s m = .pattern) ∧
    (jsTrim s ≠ "" → (¬ ∃ c ∈ (jsTrim s).data, isWs c = true) →
      (¬ ∀ c ∈ (jsTrim s).data, isPatternChar c = true) →
      detectInputType s m = .definition) ∧
    (detectInputType "c_s_" .pattern = .pattern ∧
     detectInputType "animal doméstico" .pattern = .definition ∧
     detectInputType "" .definition = .definition) := by
  have hws_not_pat : ∀ c : Char, isWs c = true → isPatternChar c = false := by
    intro c hc
    simp only [isWs, Bool.or_eq_true, beq_iff_eq] at hc
    rcases hc with ((h | h) | h) | h <;> subst h <;> decide
  refine ⟨?_, ?_, ?_, ?_, by decide, by decide, by decide⟩
  · intro h
    simp [detectInputType, h]
  · rintro hne ⟨c, hc, hwc⟩
    by_cases hsp : (' ' : Char) ∈ (jsTrim s).data
    · simp [detectInputType, hne, hsp]
    · have hall : ¬ (∀ x ∈ (jsTrim s).data, isPatternChar x = true) := by
        intro hT
        have := hT c hc
        rw [hws_not_pat c hwc] at this
        exact Bool.false_ne_true this
      simp [detectInputType, hne, hsp, hall]
  · intro hne hall
    have hsp : (' ' : Char) ∉ (jsTrim s).data := by
      intro hmem
      have := hall ' ' hmem
      simp [isPatternChar] at this
    simp only [detectInputType]
    simp [hne, hsp]
    exact hall
  · intro hne hnws hnall
    have hsp : (' ' : Char) ∉ (jsTrim s).data := by
      intro hmem
      exact hnws ⟨' ', hmem, by decide⟩
    simp [detectInputType, hne, hsp, hnall]

/-- Witness for C1: the detector's clauses discharged at concrete inputs. -/
theorem detectInputType_spec_witness :
    detectInputType "" SearchMode.pattern = SearchMode.pattern ∧
    detectInputType "a b" SearchMode.pattern = SearchMode.definition ∧
    detectInputType "c_s_" SearchMode.definition = SearchMode.pattern ∧
    detectInputType "c2s4" SearchMode.pattern = SearchMode.definition := by
  refine ⟨?_, ?_, ?_, ?_⟩
  · exact (detectInputType_spec "" SearchMode.pattern).1 (by decide)
  · exact (detectInputType_spec "a b" SearchMode.pattern).2.1 (by decide)
      ⟨' ', by decide, by decide⟩
  · exact (detectInputType_spec "c_s_" SearchMode.definition).2.2.1 (by decide)
      (by decide)
  · exact (detectInputType_spec "c2s4" SearchMode.pattern).2.2.2.1 (by decide)
      (by decide) (by decide)

/-! ## C2: the history store -/

lemma saveToHistory_eq_key_filter (p : String) (l : Int) (c : String)
    (m : SearchMode) (now : Nat) (h : List SearchHistoryItem) :
    saveToHistory p l c m now h
      = ((⟨p, l, c, m, now⟩ : SearchHistoryItem)
          :: h.filter (fun item => decide (historyKey item ≠ (p, c, m)))
        ).take MAX_HISTORY_ITEMS := by
  have hf : h.filter
        (fun item =>
          !(item.pattern == p && item.clue == c && item.mode == m))
      = h.filter (fun item => decide (historyKey item ≠ (p, c, m))) := by
    apply List.filter_congr
    intro item _
    rw [Bool.eq_iff_iff]
    simp [historyKey, Prod.ext_iff, and_assoc, or_assoc, beq_eq_false_iff_ne]
  simp only [saveToHistory, hf]

lemma take_append_take (a b : List SearchHistoryItem) (n : Nat) :
    (a ++ b.take n).take n = (a ++ b).take n := by
  rw [List.take_append_eq_append_take, List.take_append_eq_append_take,
    List.take_take]
  congr 1
  exact congrArg (fun k => List.take k b) (Nat.min_eq_left (Nat.sub_le n _))

lemma saveToHistory_foldl_distinct :
    ∀ (L h : List SearchHistoryItem),
    (L.map historyKey).Nodup →
    (∀ i ∈ L, ∀ j ∈ h, historyKey j ≠ historyKey i) →
    h.length ≤ MAX_HISTORY_ITEMS →
    L.foldl (fun acc i =>
        saveToHistory i.pattern i.length i.clue i.mode i.timestamp acc) h
      = (L.reverse ++ h).take MAX_HISTORY_ITEMS
  | [], h, _, _, hlen => by
      simp [List.take_of_length_le hlen]
  | i :: L', h, hnodup, hdisj, hlen => by
      have hstep : saveToHistory i.pattern i.length i.clue i.mode i.timestamp h
          = (i :: h).take MAX_HISTORY_ITEMS := by
        rw [saveToHistory_eq_key_filter]
        have : h.filter
              (fun j => decide (historyKey j ≠ (i.pattern, i.clue, i.mode)))
            = h := by
          apply List.filter_eq_self.mpr
          intro j hj
          exact decide_eq_true (hdisj i (List.mem_cons_self i L') j hj)
        rw [this]
      rw [List.map_cons] at hnodup
      have hnodup' : (L'.map historyKey).Nodup := hnodup.of_cons
      have hkey_i : historyKey i ∉ L'.map historyKey :=
        (List.nodup_cons.mp hnodup).1
      have hdisj' : ∀ x ∈ L', ∀ j ∈ (i :: h).take MAX_HISTORY_ITEMS,
          historyKey j ≠ historyKey x := by
        intro x hx j hj
        have hj' : j ∈ i :: h := List.take_subset _ _ hj
        rcases List.mem_cons.mp hj' with rfl | hjh
        · intro hEq
          exact hkey_i (hEq ▸ List.mem_map_of_mem historyKey hx)
        · exact hdisj x (List.mem_cons_of_mem i hx) j hjh
      have hlen' : ((i :: h).take MAX_HISTORY_ITEMS).length ≤ MAX_HISTORY_ITEMS := by
        rw [List.length_take]
        exact Nat.min_le_left _ _
      have ih := saveToHistory_foldl_distinct L' ((i :: h).take MAX_HISTORY_ITEMS)
        hnodup' hdisj' hlen'
      calc
        (i :: L').foldl (fun acc x =>
            saveToHistory x.pattern x.length x.clue x.mode x.timestamp acc) h
            = L'.foldl (fun acc x =>
                saveToHistory x.pattern x.length x.clue x.mode x.timestamp acc)
                ((i :: h).take MAX_HISTORY_ITEMS) := by
              rw [List.foldl_cons, hstep]
        _ = (L'.reverse ++ (i :: h).take MAX_HISTORY_ITEMS).take MAX_HISTORY_ITEMS := ih
        _ = (L'.reverse ++ (i :: h)).take MAX_HISTORY_ITEMS := take_append_take _ _ _
        _ = ((i :: L').reverse ++ h).take MAX_HISTORY_ITEMS := by
              rw [List.reverse_cons, List.append_assoc, List.singleton_append]

/-- C2. The operation `record` prepends the new item, keeps exactly the entries of the
previous history whose `(pattern, clue, mode)` identity key differs, and
truncates to the first 20 entries.  Consequently recording the same key
twice in a row from an empty history yields the single later item, and
recording 21 items with pairwise distinct keys yields exactly 20 items
with the oldest (first-recorded) item evicted. -/
theorem saveToHistory_spec :
    (∀ (p : String) (l : Int) (c : String) (m : SearchMode) (now : Nat)
        (h : List SearchHistoryItem),
      saveToHistory p l c m now h
        = ((⟨p, l, c, m, now⟩ : SearchHistoryItem)
            :: h.filter (fun item => decide (historyKey item ≠ (p, c, m)))
          ).take MAX_HISTORY_ITEMS) ∧
    (∀ (p c : String) (m : SearchMode) (l1 l2 : Int) (t1 t2 : Nat),
      saveToHistory p l2 c m t2 (saveToHistory p l1 c m t1 [])
        = [⟨p, l2, c, m, t2⟩]) ∧
    (∀ L : List SearchHistoryItem, L.length = 21 → (L.map historyKey).Nodup →
      L.foldl (fun acc i =>
          saveToHistory i.pattern i.length i.clue i.mode i.timestamp acc) []
        = (L.drop 1).reverse ∧
      (L.foldl (fun acc i =>
          saveToHistory i.pattern i.length i.clue i.mode i.timestamp acc) []).length
        = 20) := by
  refine ⟨saveToHistory_eq_key_filter, ?_, ?_⟩
  · intro p c m l1 l2 t1 t2
    have h1 : saveToHistory p l1 c m t1 [] = [⟨p, l1, c, m, t1⟩] := by
      rw [saveToHistory_eq_key_filter, List.filter_nil,
        List.take_of_length_le (by simp [MAX_HISTORY_ITEMS])]
    rw [h1, saveToHistory_eq_key_filter]
    have h2 : ([(⟨p, l1, c, m, t1⟩ : SearchHistoryItem)].filter
          (fun item => decide (historyKey item ≠ (p, c, m)))) = [] := by
      simp [historyKey]
    rw [h2, List.take_of_length_le (by simp [MAX_HISTORY_ITEMS])]
  · intro L hlen hnodup
    have hfold := saveToHistory_foldl_distinct L [] hnodup
      (by intro i _ j hj; cases hj) (by simp [MAX_HISTORY_ITEMS])
    rw [List.append_nil] at hfold
    have hres : L.foldl (fun acc i =>
          saveToHistory i.pattern i.length i.clue i.mode i.timestamp acc) []
        = (L.drop 1).reverse := by
      rw [hfold, List.take_reverse, MAX_HISTORY_ITEMS, hlen]
    refine ⟨hres, ?_⟩
    rw [hres, List.length_reverse, List.length_drop, hlen]

/-- Witness for C2: the 21-distinct-entries consequence at a concrete list. -/
theorem saveToHistory_spec_witness :
    witnessHistoryList.foldl (fun acc i =>
        saveToHistory i.pattern i.length i.clue i.mode i.timestamp acc) []
      = (witnessHistoryList.drop 1).reverse ∧
    (witnessHistoryList.foldl (fun acc i =>
        saveToHistory i.pattern i.length i.clue i.mode i.timestamp acc) []).length
      = 20 :=
  saveToHistory_spec.2.2 witnessHistoryList (by decide) (by decide)

/-! ## C3: the submission guard -/

/-- Counterexample to C3 as stated: with an empty pattern field, empty clue
field, the length field holding the string `"0"` and pattern mode selected,
the code issues a search (the guard tests string truthiness of the length
field), yet the claim's condition — final pattern non-empty, or numeric
length > 0, or non-empty clue in definition mode — is false. -/
theorem handleSubmit_length_zero_cex :
    (handleSubmit "" "" "0" SearchMode.pattern).isSome = true ∧
    resolveSubmission "" "" "0" SearchMode.pattern
      = some ⟨"", "", SearchMode.pattern⟩ ∧
    ¬ ((("" : String) ≠ "") ∨ jsParseIntOr0 "0" > 0 ∨
        ((("" : String) ≠ "") ∧ SearchMode.pattern = SearchMode.definition)) := by
  refine ⟨by decide, by decide, by decide⟩

/-- C3 (amended). The function `handleSubmit` issues a search request if and only if,
after the resolution algorithm, the final pattern is non-empty, OR the raw
length field is non-empty, OR the final clue is non-empty with resolved
mode = definition.  (The source guard tests the length field's string
truthiness, not the parsed numeric value.) -/
theorem handleSubmit_issues_iff (pattern clue length : String)
    (searchMode : SearchMode) :
    (handleSubmit pattern clue length searchMode).isSome = true ↔
      ∃ r, resolveSubmission pattern clue length searchMode = some r ∧
        (r.finalPattern ≠ "" ∨ length ≠ "" ∨
          (r.finalClue ≠ "" ∧ r.mode = SearchMode.definition)) := by
  cases hres : resolveSubmission pattern clue length searchMode with
  | none => simp [handleSubmit, hres]
  | some r =>
    have hcond : (r.finalPattern != "" || length != ""
          || (r.finalClue != "" && r.mode == SearchMode.definition)) = true
        ↔ (r.finalPattern ≠ "" ∨ length ≠ ""
            ∨ (r.finalClue ≠ "" ∧ r.mode = SearchMode.definition)) := by
      simp [or_assoc]
    simp only [handleSubmit, hres]
    cases hb : (r.finalPattern != "" || length != ""
        || (r.finalClue != "" && r.mode == SearchMode.definition)) with
    | false =>
      rw [if_neg Bool.false_ne_true]
      constructor
      · intro h
        simp at h
      · rintro ⟨r', hr', hP⟩
        exfalso
        injection hr' with hrr
        subst hrr
        rw [hcond.mpr hP] at hb
        exact Bool.noConfusion hb
    | true =>
      rw [if_pos rfl]
      simp only [Option.isSome_some, true_iff]
      exact ⟨r, rfl, hcond.mp hb⟩

/-! ## C9: the pattern-mode request body -/

/-- C9. In pattern mode the request goes to the pattern-search endpoint
with the pattern field present iff the pattern is non-empty, the length
field present iff the parsed length is positive, and the clue field present
iff the clue is non-empty; submitting pattern `"c_s_"` with empty length
and clue fields produces `{pattern: "c_s_"}` with length and clue
omitted. -/
theorem patternRequest_spec :
    (∀ (p : String) (l : Int) (c : String),
      issuedRequest p l c SearchMode.pattern
          = .solve (patternRequestBody p l c) ∧
      ((patternRequestBody p l c).pattern.isSome = true ↔ p ≠ "") ∧
      ((patternRequestBody p l c).length.isSome = true ↔ l > 0) ∧
      ((patternRequestBody p l c).clue.isSome = true ↔ c ≠ "")) ∧
    submitRequest "c_s_" "" "" SearchMode.pattern
      = some (.solve ⟨some "c_s_", none, none⟩) := by
  constructor
  · intro p l c
    refine ⟨rfl, ?_, ?_, ?_⟩
    · by_cases h : p = "" <;> simp [patternRequestBody, h]
    · by_cases h : l > 0 <;> simp [patternRequestBody, h]
    · by_cases h : c = "" <;> simp [patternRequestBody, h]
  · decide

/-! ## C4: length filtering only in definition mode -/

lemma jsStableSort_perm (cmp : WordResult → WordResult → ℚ)
    (l : List WordResult) : (jsStableSort cmp l).Perm l :=
  List.perm_insertionSort _ l

/-- C4. Length-range filtering applies only in definition mode: in pattern
mode the curated view is a permutation of the full result set (in
particular it has the same length, whatever the filter bounds), and in
definition mode it consists exactly of the results whose word length lies
within `[minLength, maxLength]`. -/
theorem filteredAndSorted_filtering (R : List WordResult) (F : FilterState) :
    (filteredAndSortedResults R F SearchMode.pattern).Perm R ∧
    (filteredAndSortedResults R F SearchMode.pattern).length = R.length ∧
    (filteredAndSortedResults R F SearchMode.definition).Perm
      (R.filter (inLengthRange F)) ∧
    (filteredAndSortedResults R F SearchMode.definition).length
      = (R.filter (inLengthRange F)).length := by
  refine ⟨jsStableSort_perm _ R, (jsStableSort_perm _ R).length_eq,
    jsStableSort_perm _ _, (jsStableSort_perm _ _).length_eq⟩

/-! ## C5: the sort stage -/

lemma lexCmp_nonpos_total (a : List Char) :
    ∀ b : List Char, lexCmp a b ≤ 0 ∨ lexCmp b a ≤ 0 := by
  induction a with
  | nil =>
    intro b
    cases b with
    | nil => left; norm_num [lexCmp]
    | cons y ys => left; norm_num [lexCmp]
  | cons x xs ih =>
    intro b
    cases b with
    | nil => right; norm_num [lexCmp]
    | cons y ys =>
      by_cases hxy : x < y
      · left
        simp only [lexCmp, if_pos hxy]
        norm_num
      · by_cases hyx : y < x
        · right
          simp only [lexCmp, if_pos hyx]
          norm_num
        · have hxyeq : x = y := le_antisymm (not_lt.mp hyx) (not_lt.mp hxy)
          subst hxyeq
          rcases ih ys with h | h
          · left
            simp only [lexCmp, if_neg (lt_irrefl x)]
            exact h
          · right
            simp only [lexCmp, if_neg (lt_irrefl x)]
            exact h

lemma lexCmp_nonpos_trans (a : List Char) :
    ∀ b c : List Char, lexCmp a b ≤ 0 → lexCmp b c ≤ 0 → lexCmp a c ≤ 0 := by
  induction a with
  | nil =>
    intro b c _ _
    cases c with
    | nil => norm_num [lexCmp]
    | cons z zs => norm_num [lexCmp]
  | cons x xs ih =>
    intro b c h1 h2
    cases b with
    | nil =>
      exfalso
      simp only [lexCmp] at h1
      norm_num at h1
    | cons y ys =>
      cases c with
      | nil =>
        exfalso
        simp only [lexCmp] at h2
        norm_num at h2
      | cons z zs =>
        have H1 : x < y ∨ (x = y ∧ lexCmp xs ys ≤ 0) := by
          by_cases hxy : x < y
          · exact Or.inl hxy
          · by_cases hyx : y < x
            · exfalso
              simp only [lexCmp, if_neg hxy, if_pos hyx] at h1
              norm_num at h1
            · have hxyeq : x = y := le_antisymm (not_lt.mp hyx) (not_lt.mp hxy)
              simp only [lexCmp, if_neg hxy, if_neg hyx] at h1
              exact Or.inr ⟨hxyeq, h1⟩
        have H2 : y < z ∨ (y = z ∧ lexCmp ys zs ≤ 0) := by
          by_cases hyz : y < z
          · exact Or.inl hyz
          · by_cases hzy : z < y
            · exfalso
              simp only [lexCmp, if_neg hyz, if_pos hzy] at h2
              norm_num at h2
            · have hyzeq : y = z := le_antisymm (not_lt.mp hzy) (not_lt.mp hyz)
              simp only [lexCmp, if_neg hyz, if_neg hzy] at h2
              exact Or.inr ⟨hyzeq, h2⟩
        rcases H1 with hxy | ⟨hxyeq, hxs⟩
        · rcases H2 with hyz | ⟨hyzeq, hys⟩
          · have hxz : x < z := lt_trans hxy hyz
            simp only [lexCmp, if_pos hxz]
            norm_num
          · have hxz : x < z := lt_of_lt_of_eq hxy hyzeq
            simp only [lexCmp, if_pos hxz]
            norm_num
        · rcases H2 with hyz | ⟨hyzeq, hys⟩
          · have hxz : x < z := lt_of_le_of_lt (le_of_eq hxyeq) hyz
            simp only [lexCmp, if_pos hxz]
            norm_num
          · have hxz : x = z := hxyeq.trans hyzeq
            subst hxz
            simp only [lexCmp, if_neg (lt_irrefl x)]
            exact ih ys zs hxs hys

lemma jsStableSort_sorted (cmp : WordResult → WordResult → ℚ)
    (htrans : ∀ a b c, cmp a b ≤ 0 → cmp b c ≤ 0 → cmp a c ≤ 0)
    (htotal : ∀ a b, cmp a b ≤ 0 ∨ cmp b a ≤ 0)
    (l : List WordResult) :
    (jsStableSort cmp l).Pairwise (fun a b => cmp a b ≤ 0) :=
  @List.sorted_insertionSort WordResult (fun a b => cmp a b ≤ 0)
    inferInstance ⟨htotal⟩ ⟨htrans⟩ l

lemma jsStableSort_found (l : List WordResult) :
    jsStableSort (sortComparator .found) l = l := by
  induction l with
  | nil => rfl
  | cons a t ih =>
    simp only [jsStableSort] at ih ⊢
    simp only [List.insertionSort]
    rw [ih]
    cases t with
    | nil => rfl
    | cons b t' => simp [List.orderedInsert, sortComparator]

lemma orderedInsert_congr (r s : WordResult → WordResult → Prop)
    [DecidableRel r] [DecidableRel s] (hrs : ∀ a b, r a b ↔ s a b)
    (a : WordResult) :
    ∀ l : List WordResult, List.orderedInsert r a l = List.orderedInsert s a l := by
  intro l
  induction l with
  | nil => rfl
  | cons b t ih =>
    simp only [List.orderedInsert]
    rw [if_congr (hrs a b) rfl (congrArg (List.cons b) ih)]

lemma insertionSort_congr (r s : WordResult → WordResult → Prop)
    [DecidableRel r] [DecidableRel s] (hrs : ∀ a b, r a b ↔ s a b) :
    ∀ l : List WordResult, List.insertionSort r l = List.insertionSort s l := by
  intro l
  induction l with
  | nil => rfl
  | cons a t ih =>
    simp only [List.insertionSort]
    rw [ih, orderedInsert_congr r s hrs a]

lemma sortComparator_alpha_iff (a b : WordResult) :
    sortComparator .alphabetical a b ≤ 0 ↔ localeCompare a.word b.word ≤ 0 := by
  simp only [sortComparator]
  exact Int.cast_nonpos

lemma sortComparator_length_iff (a b : WordResult) :
    sortComparator .length a b ≤ 0 ↔ a.word.length ≤ b.word.length := by
  simp only [sortComparator]
  rw [Int.cast_nonpos]
  omega

lemma filteredAndSorted_pairwise (F : FilterState) (m : SearchMode)
    (R : List WordResult)
    (htrans : ∀ a b c, sortComparator F.sortBy a b ≤ 0 →
      sortComparator F.sortBy b c ≤ 0 → sortComparator F.sortBy a c ≤ 0)
    (htotal : ∀ a b, sortComparator F.sortBy a b ≤ 0 ∨
      sortComparator F.sortBy b a ≤ 0) :
    (filteredAndSortedResults R F m).Pairwise
      (fun a b => sortComparator F.sortBy a b ≤ 0) := by
  cases m with
  | pattern => exact jsStableSort_sorted _ htrans htotal R
  | definition => exact jsStableSort_sorted _ htrans htotal _

/-- C5. The sort stage orders by descending numeric score for Score, by
ascending locale comparison on `word` for Alphabetical, by ascending word
length for Length, and performs no reordering for FoundOrder; the spec's
concrete three-word example sorts to COSA, CASA, CASO by Score and to
CASA, CASO, COSA alphabetically. -/
theorem sortStage_spec :
    (∀ (R : List WordResult) (mn mx : Nat) (sd : Bool) (m : SearchMode),
      (filteredAndSortedResults R ⟨mn, mx, sd, .score⟩ m).Pairwise
        (fun a b => b.score ≤ a.score)) ∧
    (∀ (R : List WordResult) (mn mx : Nat) (sd : Bool) (m : SearchMode),
      (filteredAndSortedResults R ⟨mn, mx, sd, .alphabetical⟩ m).Pairwise
        (fun a b => localeCompare a.word b.word ≤ 0)) ∧
    (∀ (R : List WordResult) (mn mx : Nat) (sd : Bool) (m : SearchMode),
      (filteredAndSortedResults R ⟨mn, mx, sd, .length⟩ m).Pairwise
        (fun a b => a.word.length ≤ b.word.length)) ∧
    (∀ (R : List WordResult) (mn mx : Nat) (sd : Bool),
      filteredAndSortedResults R ⟨mn, mx, sd, .found⟩ SearchMode.pattern = R ∧
      filteredAndSortedResults R ⟨mn, mx, sd, .found⟩ SearchMode.definition
        = R.filter (inLengthRange ⟨mn, mx, sd, .found⟩)) ∧
    ((filteredAndSortedResults demoResults ⟨0, 20, true, .score⟩
        SearchMode.pattern).map (fun r => r.word) = ["COSA", "CASA", "CASO"] ∧
     (filteredAndSortedResults demoResults ⟨0, 20, true, .alphabetical⟩
        SearchMode.pattern).map (fun r => r.word) = ["CASA", "CASO", "COSA"]) := by
  refine ⟨?_, ?_, ?_, ?_, ?_, ?_⟩
  · intro R mn mx sd m
    have h := filteredAndSorted_pairwise ⟨mn, mx, sd, .score⟩ m R
      (fun a b c h1 h2 =>
        sub_nonpos.mpr (le_trans (sub_nonpos.mp h2) (sub_nonpos.mp h1)))
      (fun a b => Or.imp sub_nonpos.mpr sub_nonpos.mpr (le_total b.score a.score))
    exact h.imp (fun hab => sub_nonpos.mp hab)
  · intro R mn mx sd m
    have h := filteredAndSorted_pairwise ⟨mn, mx, sd, .alphabetical⟩ m R
      (fun a b c h1 h2 => (sortComparator_alpha_iff a c).mpr
        (lexCmp_nonpos_trans a.word.data b.word.data c.word.data
          ((sortComparator_alpha_iff a b).mp h1)
          ((sortComparator_alpha_iff b c).mp h2)))
      (fun a b => Or.imp (sortComparator_alpha_iff a b).mpr
        (sortComparator_alpha_iff b a).mpr
        (lexCmp_nonpos_total a.word.data b.word.data))
    exact h.imp (fun hab => (sortComparator_alpha_iff _ _).mp hab)
  · intro R mn mx sd m
    have h := filteredAndSorted_pairwise ⟨mn, mx, sd, .length⟩ m R
      (fun a b c h1 h2 => (sortComparator_length_iff a c).mpr
        (le_trans ((sortComparator_length_iff a b).mp h1)
          ((sortComparator_length_iff b c).mp h2)))
      (fun a b => Or.imp (sortComparator_length_iff a b).mpr
        (sortComparator_length_iff b a).mpr
        (Nat.le_total a.word.length b.word.length))
    exact h.imp (fun hab => (sortComparator_length_iff _ _).mp hab)
  · intro R mn mx sd
    exact ⟨jsStableSort_found R, jsStableSort_found _⟩
  · have hcongr : jsStableSort (sortComparator .score) demoResults
        = List.insertionSort
            (fun a b : WordResult => b.score ≤ a.score) demoResults := by
      apply insertionSort_congr
      intro a b
      exact sub_nonpos
    show (jsStableSort (sortComparator SortOption.score) demoResults).map
        (fun r => r.word) = ["COSA", "CASA", "CASO"]
    rw [hcongr]
    decide
  · have hcongr : jsStableSort (sortComparator .alphabetical) demoResults
        = List.insertionSort
            (fun a b : WordResult => localeCompare a.word b.word ≤ 0)
            demoResults := by
      apply insertionSort_congr
      intro a b
      exact sortComparator_alpha_iff a b
    show (jsStableSort (sortComparator SortOption.alphabetical) demoResults).map
        (fun r => r.word) = ["CASA", "CASO", "COSA"]
    rw [hcongr]
    decide

/-! ## C6: the min/max filter invariant -/

lemma foldl_min_le_foldl_max :
    ∀ (t : List Nat) (h1 h2 : Nat), h1 ≤ h2 →
      t.foldl Nat.min h1 ≤ t.foldl Nat.max h2
  | [], _, _, h => h
  | a :: t, h1, h2, h => by
      simp only [List.foldl_cons]
      exact foldl_min_le_foldl_max t _ _
        (le_trans (Nat.min_le_left h1 a) (le_trans h (Nat.le_max_left h2 a)))

lemma mathMin_le_mathMax (l : List Nat) (hne : l ≠ []) :
    mathMinList l ≤ mathMaxList l := by
  cases l with
  | nil => exact absurd rfl hne
  | cons h t => exact foldl_min_le_foldl_max t h h le_rfl

/-- Counterexample to C6 as stated: from the curator's mount state in
definition mode, a legal trace of user edits — results of word lengths 3
and 5 arrive, the max slider is set to 3, the min slider is set to 5, each
slider value inside the range offered by the range inputs — ends in a
filter state with `minLength = 5 > 3 = maxLength`. -/
theorem curator_minmax_cex :
    legalTrace (initialCurator SearchMode.definition) curatorCexTrace = true ∧
    (runTrace (initialCurator SearchMode.definition)
        curatorCexTrace).filters.minLength = 5 ∧
    (runTrace (initialCurator SearchMode.definition)
        curatorCexTrace).filters.maxLength = 3 ∧
    ¬ ((runTrace (initialCurator SearchMode.definition)
          curatorCexTrace).filters.minLength
        ≤ (runTrace (initialCurator SearchMode.definition)
          curatorCexTrace).filters.maxLength) := by
  refine ⟨by decide, by decide, by decide, by decide⟩

/-- C6 (amended). The invariant `minLength ≤ maxLength` is established by
every result-set change to a non-empty result set (the range is re-clamped
to the new set's actual minimum and maximum word lengths) and is preserved
by every event other than an edit of the min or max length slider; a
slider edit can violate it, since the code does not clamp one bound
against the other. -/
theorem curator_minmax_invariant :
    (∀ (s : CuratorState) (R : List WordResult), R ≠ [] →
      (curatorStep s (.resultsChanged R)).filters.minLength
        ≤ (curatorStep s (.resultsChanged R)).filters.maxLength) ∧
    (∀ (s : CuratorState) (e : CuratorEvent),
      s.filters.minLength ≤ s.filters.maxLength →
      isLengthEdit e = false →
      (curatorStep s e).filters.minLength
        ≤ (curatorStep s e).filters.maxLength) := by
  constructor
  · intro s R hne
    simp only [curatorStep, if_neg hne]
    exact mathMin_le_mathMax _ (by simpa using hne)
  · intro s e hinv hedit
    cases e with
    | setMinLength v => simp [isLengthEdit] at hedit
    | setMaxLength v => simp [isLengthEdit] at hedit
    | setSortBy o => exact hinv
    | setShowDefinitions b => exact hinv
    | modeChanged m => exact hinv
    | resultsChanged R =>
      by_cases hne : R = []
      · simp only [curatorStep, if_pos hne]
        exact hinv
      · simp only [curatorStep, if_neg hne]
        exact mathMin_le_mathMax _ (by simpa using hne)

/-- Witness for the amended C6: a non-empty result set establishes the
invariant and a non-slider event preserves it, at concrete inputs. -/
theorem curator_minmax_invariant_witness :
    (curatorStep (initialCurator SearchMode.definition)
        (.resultsChanged [⟨"CASA", mkRat 8 10, none, "local"⟩])).filters.minLength
      ≤ (curatorStep (initialCurator SearchMode.definition)
        (.resultsChanged [⟨"CASA", mkRat 8 10, none, "local"⟩])).filters.maxLength ∧
    (curatorStep (initialCurator SearchMode.definition)
        (.setSortBy .length)).filters.minLength
      ≤ (curatorStep (initialCurator SearchMode.definition)
        (.setSortBy .length)).filters.maxLength :=
  ⟨curator_minmax_invariant.1 _ _ (List.cons_ne_nil _ _),
   curator_minmax_invariant.2 _ _ (by decide) (by decide)⟩

/-! ## C7: error signalling leaves the history untouched -/

/-- C7. On a transport failure or a non-ok response, `handleSearch`
surfaces exactly one human-readable error string and leaves the history —
in memory and in durable storage — unchanged; a history entry is recorded
only on the success path, and there the error cell is cleared and the
results are stored. -/
theorem handleSearch_error_handling (st : AppState) (pattern : String)
    (length : Int) (clue : String) (mode : SearchMode) (now : Nat)
    (storageOk : Bool) :
    (∀ msg : String,
      (handleSearch st pattern length clue mode now storageOk
          (.networkFailure msg)).error = some msg ∧
      (handleSearch st pattern length clue mode now storageOk
          (.networkFailure msg)).searchHistory = st.searchHistory ∧
      (handleSearch st pattern length clue mode now storageOk
          (.networkFailure msg)).storedHistory = st.storedHistory) ∧
    (∀ (status : Nat) (body : ResponseBody),
      (handleSearch st pattern length clue mode now storageOk
          (.httpError status body)).error
        = some (httpErrorMessage status body) ∧
      (handleSearch st pattern length clue mode now storageOk
          (.httpError status body)).searchHistory = st.searchHistory ∧
      (handleSearch st pattern length clue mode now storageOk
          (.httpError status body)).storedHistory = st.storedHistory) ∧
    (∀ data : Option (List WordResult),
      (handleSearch st pattern length clue mode now storageOk
          (.success data)).searchHistory
        = saveToHistory pattern length clue mode now st.searchHistory ∧
      (handleSearch st pattern length clue mode now storageOk
          (.success data)).error = none ∧
      (handleSearch st pattern length clue mode now storageOk
          (.success data)).results = data.getD []) :=
  ⟨fun _ => ⟨rfl, rfl, rfl⟩,
   fun _ _ => ⟨rfl, rfl, rfl⟩,
   fun _ => ⟨rfl, rfl, rfl⟩⟩

/-! ## C8: loading the history never throws -/

/-- C8. The history load effect returns the empty history whenever the
storage key is missing, the storage layer fails, or the stored content
does not parse; every exception of the body is caught, so the load never
throws. -/
theorem loadHistory_spec :
    loadHistory .missing = [] ∧
    loadHistory .failure = [] ∧
    loadHistory (.content none) = [] ∧
    (∀ stored : StorageRead, ∀ e : String,
      loadHistoryBody stored = .error e → loadHistory stored = []) := by
  refine ⟨rfl, rfl, rfl, ?_⟩
  intro stored e he
  simp [loadHistory, he]

/-- Witness for C8: the catch path applied at a concrete failing read. -/
theorem loadHistory_spec_witness :
    loadHistory (.content none) = [] :=
  loadHistory_spec.2.2.2 (.content none) "JSON parse error" rfl

/-! ## C10: the curator does not mutate its input -/

lemma readArr_set_ne (h : List (List WordResult)) (i j : Nat)
    (v : List WordResult) (hne : j ≠ i) :
    readArr (h.set i v) j = readArr h j := by
  simp only [readArr]
  rw [List.getElem?_set_ne (Ne.symm hne)]

lemma readArr_append_left (h tail : List (List WordResult)) (j : Nat)
    (hj : j < h.length) : readArr (h ++ tail) j = readArr h j := by
  simp only [readArr]
  rw [List.getElem?_append_left hj]

lemma readArr_concat_length (h : List (List WordResult))
    (v : List WordResult) : readArr (h ++ [v]) h.length = v := by
  simp only [readArr]
  rw [List.getElem?_concat_length]
  rfl

lemma readArr_set_self (h : List (List WordResult)) (i : Nat)
    (v : List WordResult) (hi : i < h.length) :
    readArr (h.set i v) i = v := by
  simp only [readArr]
  rw [List.getElem?_set_self hi]
  rfl

/-- C10. Computing the curated view never mutates the results array it is
given: in the heap model, the only in-place write (the `.sort`) hits the
freshly allocated spread copy, so the caller's array is unchanged, and the
reference returned holds exactly the functional curated view. -/
theorem filteredAndSorted_no_mutation (heap : List (List WordResult))
    (r : Nat) (F : FilterState) (m : SearchMode) (hr : r < heap.length) :
    readArr (filteredAndSortedResultsHeap heap r F m).1 r = readArr heap r ∧
    readArr (filteredAndSortedResultsHeap heap r F m).1
        (filteredAndSortedResultsHeap heap r F m).2
      = filteredAndSortedResults (readArr heap r) F m := by
  cases m with
  | pattern =>
    constructor
    · show readArr ((heap ++ [readArr heap r]).set heap.length
          (jsStableSort (sortComparator F.sortBy)
            (readArr (heap ++ [readArr heap r]) heap.length))) r
        = readArr heap r
      rw [readArr_set_ne _ _ _ _ (Nat.ne_of_lt hr),
        readArr_append_left _ _ _ hr]
    · show readArr ((heap ++ [readArr heap r]).set heap.length
          (jsStableSort (sortComparator F.sortBy)
            (readArr (heap ++ [readArr heap r]) heap.length))) heap.length
        = filteredAndSortedResults (readArr heap r) F SearchMode.pattern
      rw [readArr_concat_length, readArr_set_self _ _ _ (by simp)]
      rfl
  | definition =>
    constructor
    · show readArr ((heap ++ [(readArr heap r).filter (inLengthRange F)]
            ++ [readArr (heap ++ [(readArr heap r).filter (inLengthRange F)])
                  heap.length]).set
          (heap ++ [(readArr heap r).filter (inLengthRange F)]).length
          (jsStableSort (sortComparator F.sortBy)
            (readArr (heap ++ [(readArr heap r).filter (inLengthRange F)]
                ++ [readArr
                      (heap ++ [(readArr heap r).filter (inLengthRange F)])
                      heap.length])
              (heap ++ [(readArr heap r).filter (inLengthRange F)]).length)))
          r
        = readArr heap r
      generalize (readArr heap r).filter (inLengthRange F) = q
      have hlen1 : r < (heap ++ [q]).length := by
        simp only [List.length_append, List.length_singleton]
        omega
      rw [readArr_set_ne _ _ _ _ (Nat.ne_of_lt hlen1),
        readArr_append_left _ _ _ hlen1,
        readArr_append_left _ _ _ hr]
    · show readArr ((heap ++ [(readArr heap r).filter (inLengthRange F)]
            ++ [readArr (heap ++ [(readArr heap r).filter (inLengthRange F)])
                  heap.length]).set
          (heap ++ [(readArr heap r).filter (inLengthRange F)]).length
          (jsStableSort (sortComparator F.sortBy)
            (readArr (heap ++ [(readArr heap r).filter (inLengthRange F)]
                ++ [readArr
                      (heap ++ [(readArr heap r).filter (inLengthRange F)])
                      heap.length])
              (heap ++ [(readArr heap r).filter (inLengthRange F)]).length)))
          ((heap ++ [(readArr heap r).filter (inLengthRange F)]).length)
        = filteredAndSortedResults (readArr heap r) F SearchMode.definition
      generalize hq : (readArr heap r).filter (inLengthRange F) = q
      rw [readArr_concat_length heap q,
        readArr_concat_length (heap ++ [q]) q,
        readArr_set_self _ _ _ (by simp)]
      rw [show filteredAndSortedResults (readArr heap r) F SearchMode.definition
          = jsStableSort (sortComparator F.sortBy)
              ((readArr heap r).filter (inLengthRange F)) from rfl, hq]

/-- Witness for C10: the no-mutation theorem applied to a one-array heap. -/
theorem filteredAndSorted_no_mutation_witness :
    readArr (filteredAndSortedResultsHeap
        [[⟨"CASA", mkRat 8 10, none, "local"⟩]] 0 ⟨0, 20, true, .found⟩
        SearchMode.pattern).1 0
      = readArr [[⟨"CASA", mkRat 8 10, none, "local"⟩]] 0 ∧
    readArr (filteredAndSortedResultsHeap
        [[⟨"CASA", mkRat 8 10, none, "local"⟩]] 0 ⟨0, 20, true, .found⟩
        SearchMode.pattern).1
        (filteredAndSortedResultsHeap
          [[⟨"CASA", mkRat 8 10, none, "local"⟩]] 0 ⟨0, 20, true, .found⟩
          SearchMode.pattern).2
      = filteredAndSortedResults
          (readArr [[⟨"CASA", mkRat 8 10, none, "local"⟩]] 0)
          ⟨0, 20, true, .found⟩ SearchMode.pattern :=
  filteredAndSorted_no_mutation [[⟨"CASA", mkRat 8 10, none, "local"⟩]] 0
    ⟨0, 20, true, .found⟩ SearchMode.pattern (by decide)
